import Mathlib

/-!
Shallow embedding of the bevy_gizmos immediate-mode line-drawing pipeline
(crates/bevy_gizmos/src/gizmos.rs and crates/bevy_gizmos/src/lib.rs).

Modelling conventions:
* Buffer entries: the source stores raw f32 triples/quadruples in which the
  all-NaN value serves as the strip restart marker.  Here a buffer entry is
  an Option payload: some p is an ordinary value pushed by a drawing call
  and none is the all-NaN restart-marker entry (the [f32::NAN; 3] and
  [f32::NAN; 4] values of the source).  Caller-supplied points are modelled
  as real-number tuples, which have no NaN, so the marker is exactly the
  one distinguished entry; this mirrors the spec's stated assumption that
  NaN cannot occur from normal drawing calls.
* The buffer layer is polymorphic in the position payload P and the colour
  payload C; the source is monomorphic at [f32; 3] and [f32; 4].  The real
  instantiation (Vec3 over the reals) appears further below together with
  the shape samplers and the builders.
* f32 arithmetic is modelled as real arithmetic; usize as Nat.
-/

section CoreBuffer

variable {P C : Type}

/-- Gizmo configuration as read by this pipeline: only the enabled flag is
consumed here (line width and depth bias are read by the out-of-scope
render glue and never influence the buffers). -/
structure GizmoConfig where
  enabled : Bool

/-- GizmoBuffer from gizmos.rs: the four per-channel vectors (list/strip,
positions/colors).  The structurally identical per-group GizmoStorage
struct is modelled by this same type. -/
structure GizmoBuffer (P C : Type) where
  list_positions : List (Option P)
  list_colors : List (Option C)
  strip_positions : List (Option P)
  strip_colors : List (Option C)

/-- Derive-Default of GizmoBuffer / GizmoStorage: all four vectors empty. -/
def GizmoBuffer.empty : GizmoBuffer P C := ⟨[], [], [], []⟩

/-- Vec::resize(new_len, value) of the Rust standard library: extend with
copies of value up to new_len, or truncate down to new_len. -/
def vecResize {α : Type} (l : List α) (n : Nat) (v : α) : List α :=
  if l.length ≤ n then l ++ List.replicate (n - l.length) v else l.take n

theorem vecResize_length {α : Type} (l : List α) (n : Nat) (v : α) :
    (vecResize l n v).length = n := by
  unfold vecResize
  split
  · simp; omega
  · simp; omega

theorem vecResize_of_le {α : Type} (l : List α) (n : Nat) (v : α) (h : l.length ≤ n) :
    vecResize l n v = l ++ List.replicate (n - l.length) v := by
  unfold vecResize
  simp [h]

namespace Gizmos

/-- Gizmos::extend_list_positions: push every given position onto the list
channel (no enabled check: private helper, callers check). -/
def extend_list_positions (b : GizmoBuffer P C) (positions : List P) : GizmoBuffer P C :=
  { b with list_positions := b.list_positions ++ positions.map some }

/-- Gizmos::extend_list_colors: push every given colour onto the list channel. -/
def extend_list_colors (b : GizmoBuffer P C) (colors : List C) : GizmoBuffer P C :=
  { b with list_colors := b.list_colors ++ colors.map some }

/-- Gizmos::add_list_color: push count copies of one colour onto the list
channel (iter::repeat(color).take(count)). -/
def add_list_color (b : GizmoBuffer P C) (color : C) (count : Nat) : GizmoBuffer P C :=
  { b with list_colors := b.list_colors ++ List.replicate count (some color) }

/-- Gizmos::extend_strip_positions: push every given position onto the strip
channel, chained with exactly one restart-marker entry (iter::once(NAN)). -/
def extend_strip_positions (b : GizmoBuffer P C) (positions : List P) : GizmoBuffer P C :=
  { b with strip_positions := b.strip_positions ++ positions.map some ++ [none] }

/-- Gizmos::line: early return when the group is disabled; otherwise push the
two endpoints and two copies of the colour onto the list channel. -/
def line (cfg : GizmoConfig) (pstart pend : P) (color : C) (b : GizmoBuffer P C) :
    GizmoBuffer P C :=
  if cfg.enabled then add_list_color (extend_list_positions b [pstart, pend]) color 2 else b

/-- Gizmos::line_gradient: as line but with one colour per endpoint. -/
def line_gradient (cfg : GizmoConfig) (pstart pend : P) (start_color end_color : C)
    (b : GizmoBuffer P C) : GizmoBuffer P C :=
  if cfg.enabled then
    extend_list_colors (extend_list_positions b [pstart, pend]) [start_color, end_color]
  else b

/-- Gizmos::linestrip: early return when disabled; otherwise push all points
plus the marker onto strip positions, resize strip colors up to one below the
new position length filling with the single colour, then push the marker
colour. -/
def linestrip (cfg : GizmoConfig) (positions : List P) (color : C) (b : GizmoBuffer P C) :
    GizmoBuffer P C :=
  if cfg.enabled then
    let b1 := extend_strip_positions b positions
    let len := b1.strip_positions.length
    { b1 with strip_colors := vecResize b1.strip_colors (len - 1) (some color) ++ [none] }
  else b

/-- Gizmos::linestrip_gradient: early return when disabled; otherwise push
every point with its own colour, then one restart-marker pair. -/
def linestrip_gradient (cfg : GizmoConfig) (points : List (P × C)) (b : GizmoBuffer P C) :
    GizmoBuffer P C :=
  if cfg.enabled then
    { b with
      strip_positions := b.strip_positions ++ points.map (fun pc => some pc.1) ++ [none],
      strip_colors := b.strip_colors ++ points.map (fun pc => some pc.2) ++ [none] }
  else b

end Gizmos

end CoreBuffer

section StripAppend

variable {P C : Type}

theorem linestrip_strip_positions_eq (cfg : GizmoConfig) (he : cfg.enabled = true)
    (b : GizmoBuffer P C) (ps : List P) (color : C) :
    (Gizmos.linestrip cfg ps color b).strip_positions
      = b.strip_positions ++ ps.map some ++ [none] := by
  simp [Gizmos.linestrip, Gizmos.extend_strip_positions, he]

theorem linestrip_strip_colors_eq (cfg : GizmoConfig) (he : cfg.enabled = true)
    (b : GizmoBuffer P C) (hlen : b.strip_positions.length = b.strip_colors.length)
    (ps : List P) (color : C) :
    (Gizmos.linestrip cfg ps color b).strip_colors
      = b.strip_colors ++ List.replicate ps.length (some color) ++ [none] := by
  simp only [Gizmos.linestrip, Gizmos.extend_strip_positions, he, if_true]
  have hle : b.strip_colors.length
      ≤ (b.strip_positions ++ ps.map some ++ [none]).length - 1 := by
    simp [← hlen]
  rw [vecResize_of_le _ _ _ hle]
  simp [← hlen, List.append_assoc]

theorem linestrip_gradient_strip_positions_eq (cfg : GizmoConfig) (he : cfg.enabled = true)
    (b : GizmoBuffer P C) (pcs : List (P × C)) :
    (Gizmos.linestrip_gradient cfg pcs b).strip_positions
      = b.strip_positions ++ pcs.map (fun pc => some pc.1) ++ [none] := by
  simp [Gizmos.linestrip_gradient, he]

theorem linestrip_gradient_strip_colors_eq (cfg : GizmoConfig) (he : cfg.enabled = true)
    (b : GizmoBuffer P C) (pcs : List (P × C)) :
    (Gizmos.linestrip_gradient cfg pcs b).strip_colors
      = b.strip_colors ++ pcs.map (fun pc => some pc.2) ++ [none] := by
  simp [Gizmos.linestrip_gradient, he]

/-- C1: with the group enabled and the strip channel well formed (positions
and colours of equal length, which every reachable buffer satisfies), the
strip-append operations linestrip and linestrip_gradient with L input
points grow both the strip position buffer and the strip colour buffer by
exactly L + 1 entries, and the last appended position/colour pair is the
all-NaN restart-marker pair; this includes L = 0, where only the marker
pair is appended. -/
theorem c1_strip_append_growth {P C : Type} (cfg : GizmoConfig) (he : cfg.enabled = true)
    (b : GizmoBuffer P C) (hlen : b.strip_positions.length = b.strip_colors.length)
    (ps : List P) (color : C) (pcs : List (P × C)) :
    ((Gizmos.linestrip cfg ps color b).strip_positions.length
        = b.strip_positions.length + (ps.length + 1) ∧
      (Gizmos.linestrip cfg ps color b).strip_colors.length
        = b.strip_colors.length + (ps.length + 1) ∧
      (Gizmos.linestrip cfg ps color b).strip_positions.getLast? = some none ∧
      (Gizmos.linestrip cfg ps color b).strip_colors.getLast? = some none) ∧
    ((Gizmos.linestrip_gradient cfg pcs b).strip_positions.length
        = b.strip_positions.length + (pcs.length + 1) ∧
      (Gizmos.linestrip_gradient cfg pcs b).strip_colors.length
        = b.strip_colors.length + (pcs.length + 1) ∧
      (Gizmos.linestrip_gradient cfg pcs b).strip_positions.getLast? = some none ∧
      (Gizmos.linestrip_gradient cfg pcs b).strip_colors.getLast? = some none) := by
  refine ⟨⟨?_, ?_, ?_, ?_⟩, ⟨?_, ?_, ?_, ?_⟩⟩
  · rw [linestrip_strip_positions_eq cfg he b ps color]; simp; try omega
  · rw [linestrip_strip_colors_eq cfg he b hlen ps color]; simp; try omega
  · rw [linestrip_strip_positions_eq cfg he b ps color]
    simp [List.getLast?_append]
  · rw [linestrip_strip_colors_eq cfg he b hlen ps color]
    simp [List.getLast?_append]
  · rw [linestrip_gradient_strip_positions_eq cfg he b pcs]; simp; try omega
  · rw [linestrip_gradient_strip_colors_eq cfg he b pcs]; simp; try omega
  · rw [linestrip_gradient_strip_positions_eq cfg he b pcs]
    simp [List.getLast?_append]
  · rw [linestrip_gradient_strip_colors_eq cfg he b pcs]
    simp [List.getLast?_append]

/-- Concrete enabled configuration used by witnesses. -/
def cfgOn : GizmoConfig := ⟨true⟩

/-- Concrete disabled configuration used by witnesses. -/
def cfgOff : GizmoConfig := ⟨false⟩

theorem c1_strip_append_growth_witness :
    cfgOn.enabled = true ∧
    (GizmoBuffer.empty : GizmoBuffer Nat Nat).strip_positions.length
      = (GizmoBuffer.empty : GizmoBuffer Nat Nat).strip_colors.length ∧
    (((Gizmos.linestrip cfgOn [1, 2, 3] 7 GizmoBuffer.empty).strip_positions.length
        = (GizmoBuffer.empty : GizmoBuffer Nat Nat).strip_positions.length + ([1, 2, 3].length + 1) ∧
      (Gizmos.linestrip cfgOn [1, 2, 3] 7 GizmoBuffer.empty).strip_colors.length
        = (GizmoBuffer.empty : GizmoBuffer Nat Nat).strip_colors.length + ([1, 2, 3].length + 1) ∧
      (Gizmos.linestrip cfgOn [1, 2, 3] 7 GizmoBuffer.empty).strip_positions.getLast? = some none ∧
      (Gizmos.linestrip cfgOn [1, 2, 3] 7 GizmoBuffer.empty).strip_colors.getLast? = some none) ∧
    ((Gizmos.linestrip_gradient cfgOn [(4, 5)] GizmoBuffer.empty).strip_positions.length
        = (GizmoBuffer.empty : GizmoBuffer Nat Nat).strip_positions.length + ([(4, 5)].length + 1) ∧
      (Gizmos.linestrip_gradient cfgOn [(4, 5)] GizmoBuffer.empty).strip_colors.length
        = (GizmoBuffer.empty : GizmoBuffer Nat Nat).strip_colors.length + ([(4, 5)].length + 1) ∧
      (Gizmos.linestrip_gradient cfgOn [(4, 5)] GizmoBuffer.empty).strip_positions.getLast? = some none ∧
      (Gizmos.linestrip_gradient cfgOn [(4, 5)] GizmoBuffer.empty).strip_colors.getLast? = some none)) :=
  ⟨rfl, rfl, c1_strip_append_growth cfgOn rfl GizmoBuffer.empty rfl [1, 2, 3] 7 [(4, 5)]⟩

end StripAppend

section AssetCompiler

variable {P C : Type}

/-- LineGizmo asset from lib.rs: positions, colours (entries may be the
restart marker in the strip topology) and the strip topology flag. -/
structure LineGizmo (P C : Type) where
  positions : List (Option P)
  colors : List (Option C)
  strip : Bool

/-- Association-list lookup used to model the asset store and handle maps. -/
def lookupAssoc {α : Type} : List (Nat × α) → Nat → Option α
  | [], _ => none
  | kv :: tl, id => if kv.1 = id then some kv.2 else lookupAssoc tl id

/-- Assets::<LineGizmo> of the external asset store, modelled as an
association list from numeric handle ids to assets plus a fresh-id counter:
add stores under a fresh id, get and get_mut look a handle up. -/
structure Assets (P C : Type) where
  data : List (Nat × LineGizmo P C)
  nextId : Nat

/-- Assets::get: look the handle up. -/
def Assets.get? (a : Assets P C) (id : Nat) : Option (LineGizmo P C) :=
  lookupAssoc a.data id

/-- Assets::get_mut followed by overwriting the asset: replace the entry
stored under the handle. -/
def Assets.set (a : Assets P C) (id : Nat) (g : LineGizmo P C) : Assets P C :=
  { a with data := a.data.map (fun kv => if kv.1 = id then (id, g) else kv) }

/-- Assets::add: store under a fresh id and return the new handle. -/
def Assets.add (a : Assets P C) (g : LineGizmo P C) : Assets P C × Nat :=
  ({ data := (a.nextId, g) :: a.data, nextId := a.nextId + 1 }, a.nextId)

/-- Well-formedness of the asset store: every stored id is below the
fresh-id counter. -/
def wfAssets (a : Assets P C) : Prop := ∀ kv ∈ a.data, kv.1 < a.nextId

theorem Assets.get?_add_self (a : Assets P C) (g : LineGizmo P C) :
    ((a.add g).1).get? a.nextId = some g := by
  simp [Assets.add, Assets.get?, lookupAssoc]

theorem Assets.get?_add_ne (a : Assets P C) (g : LineGizmo P C) (k : Nat)
    (h : k ≠ a.nextId) : ((a.add g).1).get? k = a.get? k := by
  have hne : a.nextId ≠ k := fun hc => h hc.symm
  simp [Assets.add, Assets.get?, lookupAssoc, hne]

theorem lookupAssoc_set_self {α : Type} (l : List (Nat × α)) (id : Nat) (g g0 : α)
    (h : lookupAssoc l id = some g0) :
    lookupAssoc (l.map (fun kv => if kv.1 = id then (id, g) else kv)) id = some g := by
  induction l with
  | nil => simp [lookupAssoc] at h
  | cons kv tl ih =>
    by_cases hk : kv.1 = id
    · simp [lookupAssoc, hk]
    · simp only [lookupAssoc, hk, if_false] at h
      simp only [List.map_cons, hk, if_false, lookupAssoc]
      exact ih h

theorem lookupAssoc_set_ne {α : Type} (l : List (Nat × α)) (id k : Nat) (g : α)
    (h : k ≠ id) :
    lookupAssoc (l.map (fun kv => if kv.1 = id then (id, g) else kv)) k
      = lookupAssoc l k := by
  induction l with
  | nil => simp [lookupAssoc]
  | cons kv tl ih =>
    by_cases hk : kv.1 = id
    · have h1 : id ≠ k := fun hc => h hc.symm
      have h2 : kv.1 ≠ k := by rw [hk]; exact h1
      simp only [List.map_cons, hk, if_true, lookupAssoc, h1, h2, if_false]
      exact ih
    · simp only [List.map_cons, hk, if_false, lookupAssoc]
      by_cases hkk : kv.1 = k
      · simp [hkk]
      · simp only [hkk, if_false]
        exact ih

theorem Assets.get?_set_self (a : Assets P C) (id : Nat) (g g0 : LineGizmo P C)
    (h : a.get? id = some g0) : (a.set id g).get? id = some g :=
  lookupAssoc_set_self a.data id g g0 h

theorem Assets.get?_set_ne (a : Assets P C) (id k : Nat) (g : LineGizmo P C)
    (h : k ≠ id) : (a.set id g).get? k = a.get? k :=
  lookupAssoc_set_ne a.data id k g h

theorem lookupAssoc_mem {α : Type} (l : List (Nat × α)) (k : Nat) (g : α)
    (h : lookupAssoc l k = some g) : (k, g) ∈ l := by
  induction l with
  | nil => simp [lookupAssoc] at h
  | cons kv tl ih =>
    by_cases hk : kv.1 = k
    · simp only [lookupAssoc, hk, if_true, Option.some_inj] at h
      have heq : (k, g) = kv := by rw [← hk, ← h]
      rw [heq]
      exact List.mem_cons_self kv tl
    · simp only [lookupAssoc, hk, if_false] at h
      exact List.mem_cons_of_mem kv (ih h)

theorem Assets.get?_lt_nextId (a : Assets P C) (k : Nat) (g : LineGizmo P C)
    (hw : wfAssets a) (h : a.get? k = some g) : k < a.nextId :=
  hw (k, g) (lookupAssoc_mem a.data k g h)

theorem wfAssets_add (a : Assets P C) (g : LineGizmo P C) (hw : wfAssets a) :
    wfAssets (a.add g).1 := by
  intro kv hkv
  simp only [Assets.add, List.mem_cons] at hkv
  rcases hkv with h1 | h2
  · simp [Assets.add, h1]
  · have := hw kv h2
    simp only [Assets.add]
    omega

theorem wfAssets_set (a : Assets P C) (id : Nat) (g g0 : LineGizmo P C)
    (hw : wfAssets a) (hid : a.get? id = some g0) : wfAssets (a.set id g) := by
  have hlt : id < a.nextId := a.get?_lt_nextId id g0 hw hid
  intro kv hkv
  simp only [Assets.set, List.mem_map] at hkv
  obtain ⟨kv0, hkv0, hkveq⟩ := hkv
  have h0 := hw kv0 hkv0
  by_cases hk : kv0.1 = id
  · rw [hk] at hkveq
    simp only [if_true] at hkveq
    rw [← hkveq]
    simpa [Assets.set] using hlt
  · simp only [hk, if_false] at hkveq
    rw [← hkveq]
    simpa [Assets.set] using h0

end AssetCompiler

section CompileStep

variable {P C : Type}

/-- LineGizmoHandles entry pair for one group: an optional handle id per
topology (none models the key being absent from the per-TypeId hash map). -/
structure LineGizmoHandles where
  list : Option Nat
  strip : Option Nat

/-- One topology half of update_gizmo_meshes from lib.rs, acting on the
handle slot h of this group: an empty channel removes the handle and leaves
the assets and the storage untouched; with a present handle the existing
asset's position and colour arrays are overwritten in place under the same
handle (get_mut().unwrap(): none models the unwrap panic on a dangling
handle); with an absent handle a fresh asset is created with the given
topology flag and its new handle is stored.  Compiled arrays are moved out
of the storage by mem::take, leaving it empty. -/
def compileChannel (stripFlag : Bool) (a : Assets P C) (h : Option Nat)
    (pos : List (Option P)) (col : List (Option C)) :
    Option (Assets P C × Option Nat × List (Option P) × List (Option C)) :=
  if pos.isEmpty then
    some (a, none, pos, col)
  else
    match h with
    | some id =>
      match a.get? id with
      | none => none
      | some g => some (a.set id { g with positions := pos, colors := col }, some id, [], [])
    | none =>
      let added := a.add { positions := pos, colors := col, strip := stripFlag }
      some (added.1, some added.2, [], [])

/-- update_gizmo_meshes from lib.rs for one registered group: compile the
list channel, then the strip channel, returning the updated assets, the
updated handle pair and the drained storage. -/
def updateGizmoMeshes (a : Assets P C) (hs : LineGizmoHandles) (st : GizmoBuffer P C) :
    Option (Assets P C × LineGizmoHandles × GizmoBuffer P C) :=
  match compileChannel false a hs.list st.list_positions st.list_colors with
  | none => none
  | some (a1, hl, lp, lc) =>
    match compileChannel true a1 hs.strip st.strip_positions st.strip_colors with
    | none => none
    | some (a2, hstr, sp, sc) => some (a2, ⟨hl, hstr⟩, ⟨lp, lc, sp, sc⟩)

theorem compileChannel_empty (stripFlag : Bool) (a : Assets P C) (h : Option Nat)
    (col : List (Option C)) :
    compileChannel stripFlag a h [] col = some (a, none, [], col) := by
  simp [compileChannel]

theorem compileChannel_absent (stripFlag : Bool) (a : Assets P C)
    (pos : List (Option P)) (col : List (Option C)) (hne : pos ≠ []) :
    compileChannel stripFlag a none pos col
      = some ((a.add ⟨pos, col, stripFlag⟩).1, some a.nextId, [], []) := by
  have : pos.isEmpty = false := by
    cases pos with
    | nil => exact absurd rfl hne
    | cons x xs => rfl
  simp [compileChannel, this, Assets.add]

theorem compileChannel_present (stripFlag : Bool) (a : Assets P C) (id : Nat)
    (g : LineGizmo P C) (pos : List (Option P)) (col : List (Option C))
    (hne : pos ≠ []) (hg : a.get? id = some g) :
    compileChannel stripFlag a (some id) pos col
      = some (a.set id { g with positions := pos, colors := col }, some id, [], []) := by
  have : pos.isEmpty = false := by
    cases pos with
    | nil => exact absurd rfl hne
    | cons x xs => rfl
  simp [compileChannel, this, hg]

/-- C4: the per-(group, topology) compile step implements the
Absent/Present state machine.  Empty channel: the handle becomes absent
(whether or not it was present) and the asset store is untouched.
Non-empty channel, absent handle: a fresh asset holding the channel data is
created and its handle stored.  Non-empty channel, present handle: the
asset under that same handle has its arrays overwritten in place.
Consequently compiling a non-empty channel in consecutive frames keeps the
same asset handle. -/
theorem c4_compile_state_machine {P C : Type} (stripFlag : Bool) (a : Assets P C)
    (h : Option Nat) (id : Nat) (g : LineGizmo P C)
    (pos pos2 : List (Option P)) (col col2 : List (Option C)) :
    (pos = [] → compileChannel stripFlag a h pos col = some (a, none, pos, col)) ∧
    (pos ≠ [] →
      compileChannel stripFlag a none pos col
        = some ((a.add ⟨pos, col, stripFlag⟩).1, some a.nextId, [], []) ∧
      ((a.add ⟨pos, col, stripFlag⟩).1).get? a.nextId = some ⟨pos, col, stripFlag⟩) ∧
    (pos ≠ [] → a.get? id = some g →
      compileChannel stripFlag a (some id) pos col
        = some (a.set id { g with positions := pos, colors := col }, some id, [], []) ∧
      (a.set id { g with positions := pos, colors := col }).get? id
        = some { g with positions := pos, colors := col }) ∧
    (pos ≠ [] → pos2 ≠ [] →
      (compileChannel stripFlag a none pos col).map (fun r => r.2.1)
          = some (some a.nextId) ∧
      (compileChannel stripFlag ((a.add ⟨pos, col, stripFlag⟩).1) (some a.nextId)
          pos2 col2).map (fun r => r.2.1)
        = some (some a.nextId)) := by
  refine ⟨?_, ?_, ?_, ?_⟩
  · intro hp
    subst hp
    exact compileChannel_empty stripFlag a h col
  · intro hne
    exact ⟨compileChannel_absent stripFlag a pos col hne, a.get?_add_self _⟩
  · intro hne hg
    exact ⟨compileChannel_present stripFlag a id g pos col hne hg,
      a.get?_set_self id _ g hg⟩
  · intro hne hne2
    constructor
    · rw [compileChannel_absent stripFlag a pos col hne]
      rfl
    · rw [compileChannel_present stripFlag ((a.add ⟨pos, col, stripFlag⟩).1) a.nextId
        ⟨pos, col, stripFlag⟩ pos2 col2 hne2 (a.get?_add_self _)]
      rfl

theorem c4_compile_state_machine_witness :
    ([] : List (Option Nat)) = [] ∧
    ([some 1] : List (Option Nat)) ≠ [] ∧
    (Assets.get? ⟨[(0, ⟨[some 9], [some 8], false⟩)], 1⟩ 0
      = some (⟨[some 9], [some 8], false⟩ : LineGizmo Nat Nat)) ∧
    (compileChannel false (⟨[], 0⟩ : Assets Nat Nat) (some 5) [] [some 7]
      = some (⟨[], 0⟩, none, [], [some 7])) ∧
    (compileChannel false (⟨[(0, ⟨[some 9], [some 8], false⟩)], 1⟩ : Assets Nat Nat)
        (some 0) [some 1] [some 2]
      = some (Assets.set ⟨[(0, ⟨[some 9], [some 8], false⟩)], 1⟩ 0
          ⟨[some 1], [some 2], false⟩, some 0, [], [])) ∧
    ((compileChannel true (⟨[], 0⟩ : Assets Nat Nat) none [some 1] [some 2]).map
        (fun r => r.2.1) = some (some 0)) := by
  refine ⟨rfl, by decide, rfl, ?_, ?_, ?_⟩
  · exact (c4_compile_state_machine false (⟨[], 0⟩ : Assets Nat Nat) (some 5) 0
      ⟨[], [], false⟩ [] [] [some 7] []).1 rfl
  · exact ((c4_compile_state_machine false
      (⟨[(0, ⟨[some 9], [some 8], false⟩)], 1⟩ : Assets Nat Nat) (some 0) 0
      ⟨[some 9], [some 8], false⟩ [some 1] [] [some 2] []).2.2.1
      (by decide) rfl).1
  · exact ((c4_compile_state_machine true (⟨[], 0⟩ : Assets Nat Nat) none 0
      ⟨[], [], false⟩ [some 1] [some 1] [some 2] [some 2]).2.2.2
      (by decide) (by decide)).1

end CompileStep

section DrainStep

variable {P C : Type}

theorem compileChannel_nonempty_spec (stripFlag : Bool) (a : Assets P C) (h : Option Nat)
    (pos : List (Option P)) (col : List (Option C)) (hne : pos ≠ [])
    (hw : wfAssets a)
    (hv : ∀ id, h = some id → ∃ g, a.get? id = some g) :
    ∃ a2 idd, compileChannel stripFlag a h pos col = some (a2, some idd, [], []) ∧
      (∃ g2, a2.get? idd = some g2 ∧ g2.positions = pos ∧ g2.colors = col) ∧
      wfAssets a2 ∧ a.nextId ≤ a2.nextId ∧
      (∀ k g0, a.get? k = some g0 → k ≠ idd → a2.get? k = some g0) ∧
      idd < a2.nextId ∧
      (∀ i, h = some i → idd = i) := by
  cases h with
  | none =>
    refine ⟨(a.add ⟨pos, col, stripFlag⟩).1, a.nextId,
      compileChannel_absent stripFlag a pos col hne, ⟨⟨pos, col, stripFlag⟩,
      a.get?_add_self _, rfl, rfl⟩, wfAssets_add a _ hw, ?_, ?_, ?_, ?_⟩
    · simp [Assets.add]
    · intro k g0 hk hkne
      rw [Assets.get?_add_ne a _ k hkne]
      exact hk
    · simp [Assets.add]
    · intro i hi
      exact absurd hi (by simp)
  | some id =>
    obtain ⟨g, hg⟩ := hv id rfl
    have hlt : id < a.nextId := a.get?_lt_nextId id g hw hg
    refine ⟨a.set id { g with positions := pos, colors := col }, id,
      compileChannel_present stripFlag a id g pos col hne hg,
      ⟨{ g with positions := pos, colors := col },
        a.get?_set_self id _ g hg, rfl, rfl⟩,
      wfAssets_set a id _ g hw hg, ?_, ?_, ?_, ?_⟩
    · simp [Assets.set]
    · intro k g0 hk hkne
      rw [Assets.get?_set_ne a id k _ hkne]
      exact hk
    · simpa [Assets.set] using hlt
    · intro i hi
      exact Option.some_inj.mp hi

/-- C5: after the per-frame compile step for a group, every channel buffer
of that group's storage has length 0, and for each non-empty channel the
compiled asset stored under the group's handle holds exactly the channel's
full pre-compile buffer content (the arrays are moved out of the storage).
Hypotheses are the reachable-state invariants: a well-formed asset store,
per-channel positions and colours of equal length, present handles that
resolve in the store, and distinct list/strip handles. -/
theorem c5_compile_drains_storage {P C : Type} (a : Assets P C) (hs : LineGizmoHandles)
    (st : GizmoBuffer P C)
    (hw : wfAssets a)
    (hlp : st.list_positions.length = st.list_colors.length)
    (hsp : st.strip_positions.length = st.strip_colors.length)
    (hvl : ∀ id, hs.list = some id → ∃ g, a.get? id = some g)
    (hvs : ∀ id, hs.strip = some id → ∃ g, a.get? id = some g)
    (hdis : ∀ i j, hs.list = some i → hs.strip = some j → i ≠ j) :
    ∃ a2 hs2 st2, updateGizmoMeshes a hs st = some (a2, hs2, st2) ∧
      st2.list_positions.length = 0 ∧ st2.list_colors.length = 0 ∧
      st2.strip_positions.length = 0 ∧ st2.strip_colors.length = 0 ∧
      (st.list_positions ≠ [] → ∃ id g, hs2.list = some id ∧ a2.get? id = some g ∧
        g.positions = st.list_positions ∧ g.colors = st.list_colors) ∧
      (st.strip_positions ≠ [] → ∃ id g, hs2.strip = some id ∧ a2.get? id = some g ∧
        g.positions = st.strip_positions ∧ g.colors = st.strip_colors) := by
  by_cases hl : st.list_positions = []
  · have hlc : st.list_colors = [] := by
      rw [hl] at hlp
      exact List.eq_nil_of_length_eq_zero hlp.symm
    have step1 : compileChannel false a hs.list st.list_positions st.list_colors
        = some (a, none, [], st.list_colors) := by
      rw [hl]
      exact compileChannel_empty false a hs.list st.list_colors
    by_cases hstr : st.strip_positions = []
    · have hsc : st.strip_colors = [] := by
        rw [hstr] at hsp
        exact List.eq_nil_of_length_eq_zero hsp.symm
      have step2 : compileChannel true a hs.strip st.strip_positions st.strip_colors
          = some (a, none, [], st.strip_colors) := by
        rw [hstr]
        exact compileChannel_empty true a hs.strip st.strip_colors
      refine ⟨a, ⟨none, none⟩, ⟨[], st.list_colors, [], st.strip_colors⟩, ?_, ?_, ?_, ?_, ?_, ?_, ?_⟩
      · simp [updateGizmoMeshes, step1, step2]
      · rfl
      · simp [hlc]
      · rfl
      · simp [hsc]
      · intro hcon; exact absurd hl hcon
      · intro hcon; exact absurd hstr hcon
    · obtain ⟨a2, idd, heq, ⟨g2, hg2, hg2p, hg2c⟩, hw2, hmon, hpres, hltn, hids⟩ :=
        compileChannel_nonempty_spec true a hs.strip st.strip_positions st.strip_colors
          hstr hw hvs
      refine ⟨a2, ⟨none, some idd⟩, ⟨[], st.list_colors, [], []⟩, ?_, ?_, ?_, ?_, ?_, ?_, ?_⟩
      · simp [updateGizmoMeshes, step1, heq]
      · rfl
      · simp [hlc]
      · rfl
      · rfl
      · intro hcon; exact absurd hl hcon
      · intro _
        exact ⟨idd, g2, rfl, hg2, hg2p, hg2c⟩
  · obtain ⟨a1, idL, heq1, ⟨g1, hg1, hg1p, hg1c⟩, hw1, hmon1, hpres1, hltn1, hids1⟩ :=
      compileChannel_nonempty_spec false a hs.list st.list_positions st.list_colors
        hl hw hvl
    by_cases hstr : st.strip_positions = []
    · have hsc : st.strip_colors = [] := by
        rw [hstr] at hsp
        exact List.eq_nil_of_length_eq_zero hsp.symm
      have step2 : compileChannel true a1 hs.strip st.strip_positions st.strip_colors
          = some (a1, none, [], st.strip_colors) := by
        rw [hstr]
        exact compileChannel_empty true a1 hs.strip st.strip_colors
      refine ⟨a1, ⟨some idL, none⟩, ⟨[], [], [], st.strip_colors⟩, ?_, ?_, ?_, ?_, ?_, ?_, ?_⟩
      · simp [updateGizmoMeshes, heq1, step2]
      · rfl
      · rfl
      · rfl
      · simp [hsc]
      · intro _
        exact ⟨idL, g1, rfl, hg1, hg1p, hg1c⟩
      · intro hcon; exact absurd hstr hcon
    · have hvs1 : ∀ id, hs.strip = some id → ∃ g, a1.get? id = some g := by
        intro j hj
        obtain ⟨gj, hgj⟩ := hvs j hj
        have hjne : j ≠ idL := by
          cases hcl : hs.list with
          | none =>
            have hLnext : idL = a.nextId := by
              rw [hcl, compileChannel_absent false a st.list_positions st.list_colors hl]
                at heq1
              simp at heq1
              exact heq1.2.symm
            have hjlt := a.get?_lt_nextId j gj hw hgj
            omega
          | some i =>
            have hidl : idL = i := hids1 i hcl
            rw [hidl]
            exact (hdis i j hcl hj).symm
        exact ⟨gj, hpres1 j gj hgj hjne⟩
      obtain ⟨a2, idS, heq2, ⟨g2, hg2, hg2p, hg2c⟩, hw2, hmon2, hpres2, hltn2, hids2⟩ :=
        compileChannel_nonempty_spec true a1 hs.strip st.strip_positions st.strip_colors
          hstr hw1 hvs1
      have hLS : idL ≠ idS := by
        cases hcs : hs.strip with
        | none =>
          have hSnext : idS = a1.nextId := by
            rw [hcs, compileChannel_absent true a1 st.strip_positions st.strip_colors hstr]
              at heq2
            simp at heq2
            exact heq2.2.symm
          rw [hSnext]
          omega
        | some j =>
          have hidj : idS = j := hids2 j hcs
          rw [hidj]
          cases hcl : hs.list with
          | none =>
            have hLnext : idL = a.nextId := by
              rw [hcl, compileChannel_absent false a st.list_positions st.list_colors hl]
                at heq1
              simp at heq1
              exact heq1.2.symm
            obtain ⟨gj, hgj⟩ := hvs j hcs
            have hjlt := a.get?_lt_nextId j gj hw hgj
            omega
          | some i =>
            have hidl : idL = i := hids1 i hcl
            rw [hidl]
            exact hdis i j hcl hcs
      refine ⟨a2, ⟨some idL, some idS⟩, ⟨[], [], [], []⟩, ?_, rfl, rfl, rfl, rfl, ?_, ?_⟩
      · simp [updateGizmoMeshes, heq1, heq2]
      · intro _
        exact ⟨idL, g1, rfl, hpres2 idL g1 hg1 hLS, hg1p, hg1c⟩
      · intro _
        exact ⟨idS, g2, rfl, hg2, hg2p, hg2c⟩

end DrainStep

/-- Concrete storage used by the drain witness. -/
def stW : GizmoBuffer Nat Nat :=
  ⟨[some 1, some 2], [some 3, some 3], [some 5, none], [some 6, none]⟩

/-- Concrete handle pair used by the drain witness. -/
def hsW : LineGizmoHandles := ⟨none, none⟩

/-- Concrete asset store used by the drain witness. -/
def aW : Assets Nat Nat := ⟨[], 0⟩

theorem c5_compile_drains_storage_witness :
    wfAssets aW ∧
    stW.list_positions.length = stW.list_colors.length ∧
    stW.strip_positions.length = stW.strip_colors.length ∧
    (∀ id, hsW.list = some id → ∃ g, aW.get? id = some g) ∧
    (∀ id, hsW.strip = some id → ∃ g, aW.get? id = some g) ∧
    (∀ i j, hsW.list = some i → hsW.strip = some j → i ≠ j) ∧
    (∃ a2 hs2 st2, updateGizmoMeshes aW hsW stW = some (a2, hs2, st2) ∧
      st2.list_positions.length = 0 ∧ st2.list_colors.length = 0 ∧
      st2.strip_positions.length = 0 ∧ st2.strip_colors.length = 0 ∧
      (stW.list_positions ≠ [] → ∃ id g, hs2.list = some id ∧ a2.get? id = some g ∧
        g.positions = stW.list_positions ∧ g.colors = stW.list_colors) ∧
      (stW.strip_positions ≠ [] → ∃ id g, hs2.strip = some id ∧ a2.get? id = some g ∧
        g.positions = stW.strip_positions ∧ g.colors = stW.strip_colors)) :=
  ⟨by simp [wfAssets, aW], rfl, rfl, by simp [hsW], by simp [hsW], by simp [hsW],
    c5_compile_drains_storage aW hsW stW (by simp [wfAssets, aW]) rfl rfl
      (by simp [hsW]) (by simp [hsW]) (by simp [hsW])⟩

section DrawStep

variable {P C : Type}

/-- DrawLineGizmo::render instance count from lib.rs: when vertex_count is
below 2 the draw call is skipped (zero instances); otherwise a strip draws
max(vertex_count, 1) - 1 instances and a list draws vertex_count / 2. -/
def drawLineGizmoInstances (vertexCount : Nat) (strip : Bool) : Nat :=
  if vertexCount < 2 then 0
  else if strip then max vertexCount 1 - 1
  else vertexCount / 2

/-- DrawLineGizmo::render outcome given the looked-up prepared asset: a
missing asset fails the render command; otherwise it succeeds, issuing the
instance count for vertex_count = positions.len() (set by prepare_asset). -/
def renderLineGizmo (g : Option (LineGizmo P C)) : Option Nat :=
  match g with
  | none => none
  | some g => some (drawLineGizmoInstances g.positions.length g.strip)

/-- C6: for a compiled asset with N points the draw step issues exactly
N / 2 instances under List topology and exactly N - 1 instances under
Strip topology, and when N < 2 the draw is skipped entirely, producing
zero instances. -/
theorem c6_draw_instance_count {P C : Type} (g : LineGizmo P C) :
    (g.positions.length < 2 → renderLineGizmo (some g) = some 0) ∧
    (2 ≤ g.positions.length → g.strip = true →
      renderLineGizmo (some g) = some (g.positions.length - 1)) ∧
    (2 ≤ g.positions.length → g.strip = false →
      renderLineGizmo (some g) = some (g.positions.length / 2)) := by
  refine ⟨?_, ?_, ?_⟩
  · intro h
    simp [renderLineGizmo, drawLineGizmoInstances, h]
  · intro h hs
    have h2 : ¬ g.positions.length < 2 := by omega
    have hm : max g.positions.length 1 = g.positions.length := by omega
    simp [renderLineGizmo, drawLineGizmoInstances, h2, hs, hm]
  · intro h hs
    have h2 : ¬ g.positions.length < 2 := by omega
    simp [renderLineGizmo, drawLineGizmoInstances, h2, hs]

theorem c6_draw_instance_count_witness :
    ((⟨[some 1], [some 1], true⟩ : LineGizmo Nat Nat).positions.length < 2 ∧
      renderLineGizmo (some (⟨[some 1], [some 1], true⟩ : LineGizmo Nat Nat)) = some 0) ∧
    (2 ≤ (⟨[some 1, some 2, none], [some 1, some 2, none], true⟩ :
        LineGizmo Nat Nat).positions.length ∧
      renderLineGizmo (some (⟨[some 1, some 2, none], [some 1, some 2, none], true⟩ :
        LineGizmo Nat Nat)) = some 2) ∧
    (2 ≤ (⟨[some 1, some 2, some 3, some 4], [some 1, some 2, some 3, some 4], false⟩ :
        LineGizmo Nat Nat).positions.length ∧
      renderLineGizmo (some (⟨[some 1, some 2, some 3, some 4],
        [some 1, some 2, some 3, some 4], false⟩ : LineGizmo Nat Nat)) = some 2) :=
  ⟨⟨by decide, (c6_draw_instance_count ⟨[some 1], [some 1], true⟩).1 (by decide)⟩,
    ⟨by decide, (c6_draw_instance_count
      ⟨[some 1, some 2, none], [some 1, some 2, none], true⟩).2.1 (by decide) rfl⟩,
    ⟨by decide, (c6_draw_instance_count
      ⟨[some 1, some 2, some 3, some 4], [some 1, some 2, some 3, some 4], false⟩).2.2
      (by decide) rfl⟩⟩

end DrawStep

noncomputable section RealLayer

/-- Vec2 of the external math library, modelled over the reals. -/
abbrev Vec2 : Type := ℝ × ℝ

/-- Vec3 of the external math library, modelled over the reals. -/
abbrev Vec3 : Type := ℝ × ℝ × ℝ

/-- Linear-RGBA colour quadruple (Color::as_linear_rgba_f32 output). -/
abbrev Col4 : Type := ℝ × ℝ × ℝ × ℝ

/-- Componentwise Vec3 addition. -/
def vadd3 (a b : Vec3) : Vec3 := (a.1 + b.1, a.2.1 + b.2.1, a.2.2 + b.2.2)

/-- Componentwise Vec2 addition. -/
def vadd2 (a b : Vec2) : Vec2 := (a.1 + b.1, a.2 + b.2)

/-- Vec2::extend: lift to 3D with the given z. -/
def vec2Extend (v : Vec2) (z : ℝ) : Vec3 := (v.1, v.2, z)

/-- Vec3::X. -/
def vec3X : Vec3 := (1, 0, 0)

/-- Vec3::Y. -/
def vec3Y : Vec3 := (0, 1, 0)

/-- Vec3::Z. -/
def vec3Z : Vec3 := (0, 0, 1)

/-- TAU from std::f32::consts. -/
def TAU : ℝ := 2 * Real.pi

/-- DEFAULT_CIRCLE_SEGMENTS from gizmos.rs. -/
def DEFAULT_CIRCLE_SEGMENTS : Nat := 32

/-- circle_inner from gizmos.rs: segments + 1 points, the i-th at angle
i * TAU / segments, each point being (sin angle, cos angle) scaled by the
radius. -/
def circle_inner (radius : ℝ) (segments : Nat) : List Vec2 :=
  (List.range (segments + 1)).map fun (i : Nat) =>
    (Real.sin ((i : ℝ) * TAU / (segments : ℝ)) * radius,
     Real.cos ((i : ℝ) * TAU / (segments : ℝ)) * radius)

/-- arc_inner from gizmos.rs: segments + 1 points starting at
direction_angle - arc_angle / 2 and stepping by arc_angle / segments. -/
def arc_inner (direction_angle arc_angle radius : ℝ) (segments : Nat) : List Vec2 :=
  (List.range (segments + 1)).map fun (i : Nat) =>
    (Real.sin (direction_angle - arc_angle / 2
        + (i : ℝ) * (arc_angle / (segments : ℝ))) * radius,
     Real.cos (direction_angle - arc_angle / 2
        + (i : ℝ) * (arc_angle / (segments : ℝ))) * radius)

/-- rect_inner from gizmos.rs: the four half-size corners in the order
top-left, top-right, bottom-right, bottom-left. -/
def rect_inner (size : Vec2) : Vec2 × Vec2 × Vec2 × Vec2 :=
  ((-(size.1 / 2), size.2 / 2), (size.1 / 2, size.2 / 2),
   (size.1 / 2, -(size.2 / 2)), (-(size.1 / 2), -(size.2 / 2)))

/-- Mat2::from_angle of the external math library, applied to a vector:
counter-clockwise rotation by the angle. -/
def mat2Rotate (angle : ℝ) (v : Vec2) : Vec2 :=
  (Real.cos angle * v.1 - Real.sin angle * v.2,
   Real.sin angle * v.1 + Real.cos angle * v.2)

/-- GizmoBuffer at the concrete payloads of the source (f32 triples and
quadruples as real tuples). -/
abbrev RGizmoBuffer : Type := GizmoBuffer Vec3 Col4

namespace Gizmos

/-- Gizmos::ray: line from start to start + vector (enabled re-checked in
line). -/
def ray (cfg : GizmoConfig) (start vector : Vec3) (color : Col4) (b : RGizmoBuffer) :
    RGizmoBuffer :=
  if cfg.enabled then line cfg start (vadd3 start vector) color b else b

/-- Gizmos::ray_gradient. -/
def ray_gradient (cfg : GizmoConfig) (start vector : Vec3) (start_color end_color : Col4)
    (b : RGizmoBuffer) : RGizmoBuffer :=
  if cfg.enabled then
    line_gradient cfg start (vadd3 start vector) start_color end_color b
  else b

/-- Gizmos::line_2d: lift both endpoints with z = 0. -/
def line_2d (cfg : GizmoConfig) (start fin2 : Vec2) (color : Col4) (b : RGizmoBuffer) :
    RGizmoBuffer :=
  if cfg.enabled then line cfg (vec2Extend start 0) (vec2Extend fin2 0) color b else b

/-- Gizmos::line_gradient_2d. -/
def line_gradient_2d (cfg : GizmoConfig) (start fin2 : Vec2) (start_color end_color : Col4)
    (b : RGizmoBuffer) : RGizmoBuffer :=
  if cfg.enabled then
    line_gradient cfg (vec2Extend start 0) (vec2Extend fin2 0) start_color end_color b
  else b

/-- Gizmos::linestrip_2d. -/
def linestrip_2d (cfg : GizmoConfig) (positions : List Vec2) (color : Col4)
    (b : RGizmoBuffer) : RGizmoBuffer :=
  if cfg.enabled then
    linestrip cfg (positions.map (fun v => vec2Extend v 0)) color b
  else b

/-- Gizmos::linestrip_gradient_2d. -/
def linestrip_gradient_2d (cfg : GizmoConfig) (positions : List (Vec2 × Col4))
    (b : RGizmoBuffer) : RGizmoBuffer :=
  if cfg.enabled then
    linestrip_gradient cfg (positions.map (fun pc => (vec2Extend pc.1 0, pc.2))) b
  else b

/-- Gizmos::ray_2d. -/
def ray_2d (cfg : GizmoConfig) (start vector : Vec2) (color : Col4) (b : RGizmoBuffer) :
    RGizmoBuffer :=
  if cfg.enabled then line_2d cfg start (vadd2 start vector) color b else b

/-- Gizmos::ray_gradient_2d. -/
def ray_gradient_2d (cfg : GizmoConfig) (start vector : Vec2) (start_color end_color : Col4)
    (b : RGizmoBuffer) : RGizmoBuffer :=
  if cfg.enabled then
    line_gradient_2d cfg start (vadd2 start vector) start_color end_color b
  else b

/-- Gizmos::rect: the four rotated, translated corners closed into one
strip.  The quaternion action on points is the caller-resolved rotation
function (external math library). -/
def rect (cfg : GizmoConfig) (position : Vec3) (rotation : Vec3 → Vec3) (size : Vec2)
    (color : Col4) (b : RGizmoBuffer) : RGizmoBuffer :=
  if cfg.enabled then
    let c := rect_inner size
    let tl := vadd3 position (rotation (vec2Extend c.1 0))
    let tr := vadd3 position (rotation (vec2Extend c.2.1 0))
    let br := vadd3 position (rotation (vec2Extend c.2.2.1 0))
    let bl := vadd3 position (rotation (vec2Extend c.2.2.2 0))
    linestrip cfg [tl, tr, br, bl, tl] color b
  else b

/-- Gizmos::rect_2d: Mat2::from_angle rotation of the corners, closed into
one strip through linestrip_2d. -/
def rect_2d (cfg : GizmoConfig) (position : Vec2) (rotation : ℝ) (size : Vec2)
    (color : Col4) (b : RGizmoBuffer) : RGizmoBuffer :=
  if cfg.enabled then
    let c := rect_inner size
    let tl := vadd2 position (mat2Rotate rotation c.1)
    let tr := vadd2 position (mat2Rotate rotation c.2.1)
    let br := vadd2 position (mat2Rotate rotation c.2.2.1)
    let bl := vadd2 position (mat2Rotate rotation c.2.2.2)
    linestrip_2d cfg [tl, tr, br, bl, tl] color b
  else b

/-- Gizmos::cuboid: a 10-point strip (front loop then back loop) plus six
front-to-back list segments with a repeated colour.  The TransformPoint
argument is the caller-supplied point transform. -/
def cuboid (cfg : GizmoConfig) (transform : Vec3 → Vec3) (color : Col4)
    (b : RGizmoBuffer) : RGizmoBuffer :=
  if cfg.enabled then
    let c := rect_inner (1, 1)
    let tlf := transform (vec2Extend c.1 (1 / 2))
    let trf := transform (vec2Extend c.2.1 (1 / 2))
    let brf := transform (vec2Extend c.2.2.1 (1 / 2))
    let blf := transform (vec2Extend c.2.2.2 (1 / 2))
    let tlb := transform (vec2Extend c.1 (-(1 / 2)))
    let trb := transform (vec2Extend c.2.1 (-(1 / 2)))
    let brb := transform (vec2Extend c.2.2.1 (-(1 / 2)))
    let blb := transform (vec2Extend c.2.2.2 (-(1 / 2)))
    let b1 := linestrip cfg [tlf, trf, brf, blf, tlf, tlb, trb, brb, blb, tlb] color b
    add_list_color (extend_list_positions b1 [trf, trb, brf, brb, blf, blb]) color 6
  else b

end Gizmos

/-- CircleBuilder from gizmos.rs: parameters captured at construction, no
config read until finalization. -/
structure CircleBuilder where
  position : Vec3
  normal : Vec3
  radius : ℝ
  color : Col4
  segments : Nat

/-- Gizmos::circle: construct the builder with the default segment count
(no enabled check at construction). -/
def Gizmos.circle (position normal : Vec3) (radius : ℝ) (color : Col4) : CircleBuilder :=
  ⟨position, normal, radius, color, DEFAULT_CIRCLE_SEGMENTS⟩

/-- CircleBuilder::segments: store the given count as is. -/
def CircleBuilder.setSegments (self : CircleBuilder) (segments : Nat) : CircleBuilder :=
  { self with segments := segments }

/-- Drop for CircleBuilder: read enabled at finalization time; if enabled,
rotate the sampled circle into the plane of the captured normal, translate,
and append exactly one line strip.  The rotation
Quat::from_rotation_arc(Vec3::Z, normal) lives in the external math
library; its action on points is the argument fra (from, to, point). -/
def CircleBuilder.drop (fra : Vec3 → Vec3 → Vec3 → Vec3) (cfg : GizmoConfig)
    (self : CircleBuilder) (b : RGizmoBuffer) : RGizmoBuffer :=
  if cfg.enabled then
    Gizmos.linestrip cfg
      ((circle_inner self.radius self.segments).map
        (fun v2 => vadd3 self.position (fra vec3Z self.normal (vec2Extend v2 0))))
      self.color b
  else b

/-- SphereBuilder from gizmos.rs.  The quaternion rotation is modelled by
its action on vectors (external math library). -/
structure SphereBuilder where
  position : Vec3
  rotation : Vec3 → Vec3
  radius : ℝ
  color : Col4
  circle_segments : Nat

/-- Gizmos::sphere: construct the builder with the default segment count. -/
def Gizmos.sphere (position : Vec3) (rotation : Vec3 → Vec3) (radius : ℝ) (color : Col4) :
    SphereBuilder :=
  ⟨position, rotation, radius, color, DEFAULT_CIRCLE_SEGMENTS⟩

/-- SphereBuilder::circle_segments: store the given count as is. -/
def SphereBuilder.setCircleSegments (self : SphereBuilder) (segments : Nat) : SphereBuilder :=
  { self with circle_segments := segments }

/-- Drop for SphereBuilder: read enabled at finalization; if enabled, build
and immediately finalize one circle per axis of Vec3::AXES rotated by the
captured rotation. -/
def SphereBuilder.drop (fra : Vec3 → Vec3 → Vec3 → Vec3) (cfg : GizmoConfig)
    (self : SphereBuilder) (b : RGizmoBuffer) : RGizmoBuffer :=
  if cfg.enabled then
    [vec3X, vec3Y, vec3Z].foldl
      (fun acc axis =>
        CircleBuilder.drop fra cfg
          ((Gizmos.circle self.position (self.rotation axis) self.radius
              self.color).setSegments self.circle_segments) acc)
      b
  else b

/-- Circle2dBuilder from gizmos.rs. -/
structure Circle2dBuilder where
  position : Vec2
  radius : ℝ
  color : Col4
  segments : Nat

/-- Gizmos::circle_2d: construct the builder with the default segment count. -/
def Gizmos.circle_2d (position : Vec2) (radius : ℝ) (color : Col4) : Circle2dBuilder :=
  ⟨position, radius, color, DEFAULT_CIRCLE_SEGMENTS⟩

/-- Circle2dBuilder::segments: store the given count as is. -/
def Circle2dBuilder.setSegments (self : Circle2dBuilder) (segments : Nat) : Circle2dBuilder :=
  { self with segments := segments }

/-- Drop for Circle2dBuilder: read enabled at finalization; if enabled,
translate the sampled circle and append one strip through linestrip_2d. -/
def Circle2dBuilder.drop (cfg : GizmoConfig) (self : Circle2dBuilder) (b : RGizmoBuffer) :
    RGizmoBuffer :=
  if cfg.enabled then
    Gizmos.linestrip_2d cfg
      ((circle_inner self.radius self.segments).map (fun v2 => vadd2 v2 self.position))
      self.color b
  else b

/-- Arc2dBuilder from gizmos.rs: the optional explicit segment count is
None until the chained override sets it. -/
structure Arc2dBuilder where
  position : Vec2
  direction_angle : ℝ
  arc_angle : ℝ
  radius : ℝ
  color : Col4
  segments : Option Nat

/-- Gizmos::arc_2d: construct the builder with no explicit segment count. -/
def Gizmos.arc_2d (position : Vec2) (direction_angle arc_angle radius : ℝ) (color : Col4) :
    Arc2dBuilder :=
  ⟨position, direction_angle, arc_angle, radius, color, none⟩

/-- Arc2dBuilder::segments: store the given count as is. -/
def Arc2dBuilder.setSegments (self : Arc2dBuilder) (segments : Nat) : Arc2dBuilder :=
  { self with segments := some segments }

/-- Segment count used at finalization: the explicit override if set,
otherwise ceil((arc_angle.abs() / TAU) * DEFAULT_CIRCLE_SEGMENTS); the
as-usize cast saturates at zero, modelled by Int.toNat (the value is never
negative here). -/
def Arc2dBuilder.resolvedSegments (self : Arc2dBuilder) : Nat :=
  match self.segments with
  | some segments => segments
  | none => (Int.ceil ((|self.arc_angle| / TAU) * (DEFAULT_CIRCLE_SEGMENTS : ℝ))).toNat

/-- Drop for Arc2dBuilder: read enabled at finalization; if enabled,
translate the sampled arc and append one strip through linestrip_2d. -/
def Arc2dBuilder.drop (cfg : GizmoConfig) (self : Arc2dBuilder) (b : RGizmoBuffer) :
    RGizmoBuffer :=
  if cfg.enabled then
    Gizmos.linestrip_2d cfg
      ((arc_inner self.direction_angle self.arc_angle self.radius
          self.resolvedSegments).map (fun v2 => vadd2 v2 self.position))
      self.color b
  else b

end RealLayer

/-- Deep embedding of one public drawing call of the Gizmos api.  Builder
commands denote the builder's full scope: construction, chained segment
override, and the end-of-scope drop.  Where the source resolves a
quaternion or a TransformPoint, the command carries the caller-resolved
action on points as a function (external math library). -/
inductive DrawCmd where
  | line (start fin3 : Vec3) (color : Col4)
  | line_gradient (start fin3 : Vec3) (start_color end_color : Col4)
  | ray (start vector : Vec3) (color : Col4)
  | ray_gradient (start vector : Vec3) (start_color end_color : Col4)
  | linestrip (positions : List Vec3) (color : Col4)
  | linestrip_gradient (points : List (Vec3 × Col4))
  | circle (position normal : Vec3) (radius : ℝ) (color : Col4) (segments : Nat)
  | sphere (position : Vec3) (rotation : Vec3 → Vec3) (radius : ℝ) (color : Col4)
      (circle_segments : Nat)
  | rect (position : Vec3) (rotation : Vec3 → Vec3) (size : Vec2) (color : Col4)
  | cuboid (transform : Vec3 → Vec3) (color : Col4)
  | line_2d (start fin2 : Vec2) (color : Col4)
  | line_gradient_2d (start fin2 : Vec2) (start_color end_color : Col4)
  | linestrip_2d (positions : List Vec2) (color : Col4)
  | linestrip_gradient_2d (positions : List (Vec2 × Col4))
  | ray_2d (start vector : Vec2) (color : Col4)
  | ray_gradient_2d (start vector : Vec2) (start_color end_color : Col4)
  | circle_2d (position : Vec2) (radius : ℝ) (color : Col4) (segments : Nat)
  | arc_2d (position : Vec2) (direction_angle arc_angle radius : ℝ) (color : Col4)
      (segments : Option Nat)
  | rect_2d (position : Vec2) (rotation : ℝ) (size : Vec2) (color : Col4)

noncomputable section CommandLayer

/-- Interpretation of one drawing command on the per-producer buffer; fra
is the external from-rotation-arc action used by the circle and sphere
builders. -/
def applyCmd (fra : Vec3 → Vec3 → Vec3 → Vec3) (cfg : GizmoConfig) (b : RGizmoBuffer) :
    DrawCmd → RGizmoBuffer
  | .line s e c => Gizmos.line cfg s e c b
  | .line_gradient s e c1 c2 => Gizmos.line_gradient cfg s e c1 c2 b
  | .ray s v c => Gizmos.ray cfg s v c b
  | .ray_gradient s v c1 c2 => Gizmos.ray_gradient cfg s v c1 c2 b
  | .linestrip ps c => Gizmos.linestrip cfg ps c b
  | .linestrip_gradient ps => Gizmos.linestrip_gradient cfg ps b
  | .circle p n r c s =>
      CircleBuilder.drop fra cfg ((Gizmos.circle p n r c).setSegments s) b
  | .sphere p rot r c s =>
      SphereBuilder.drop fra cfg ((Gizmos.sphere p rot r c).setCircleSegments s) b
  | .rect p rot sz c => Gizmos.rect cfg p rot sz c b
  | .cuboid t c => Gizmos.cuboid cfg t c b
  | .line_2d s e c => Gizmos.line_2d cfg s e c b
  | .line_gradient_2d s e c1 c2 => Gizmos.line_gradient_2d cfg s e c1 c2 b
  | .linestrip_2d ps c => Gizmos.linestrip_2d cfg ps c b
  | .linestrip_gradient_2d ps => Gizmos.linestrip_gradient_2d cfg ps b
  | .ray_2d s v c => Gizmos.ray_2d cfg s v c b
  | .ray_gradient_2d s v c1 c2 => Gizmos.ray_gradient_2d cfg s v c1 c2 b
  | .circle_2d p r c s =>
      Circle2dBuilder.drop cfg ((Gizmos.circle_2d p r c).setSegments s) b
  | .arc_2d p d a r c so =>
      Arc2dBuilder.drop cfg { Gizmos.arc_2d p d a r c with segments := so } b
  | .rect_2d p rot sz c => Gizmos.rect_2d cfg p rot sz c b

/-- Interpretation of a call sequence, left to right. -/
def applyCmds (fra : Vec3 → Vec3 → Vec3 → Vec3) (cfg : GizmoConfig) (b : RGizmoBuffer)
    (cmds : List DrawCmd) : RGizmoBuffer :=
  cmds.foldl (applyCmd fra cfg) b

theorem applyCmd_disabled (fra : Vec3 → Vec3 → Vec3 → Vec3) (cfg : GizmoConfig)
    (hcfg : cfg.enabled = false) (b : RGizmoBuffer) (cmd : DrawCmd) :
    applyCmd fra cfg b cmd = b := by
  cases cmd <;>
    simp [applyCmd, Gizmos.line, Gizmos.line_gradient, Gizmos.ray, Gizmos.ray_gradient,
      Gizmos.linestrip, Gizmos.linestrip_gradient, Gizmos.rect, Gizmos.cuboid,
      Gizmos.line_2d, Gizmos.line_gradient_2d, Gizmos.linestrip_2d,
      Gizmos.linestrip_gradient_2d, Gizmos.ray_2d, Gizmos.ray_gradient_2d,
      Gizmos.rect_2d, CircleBuilder.drop, SphereBuilder.drop, Circle2dBuilder.drop,
      Arc2dBuilder.drop, hcfg]

/-- C2: while the group's config has enabled = false, every sequence of
public drawing calls (lines, rays, strips, rect, cuboid, the circle,
sphere and arc builders and all 2D variants) leaves the buffer unchanged;
in particular, starting from the empty buffer, all four channel buffers
remain at length 0. -/
theorem c2_disabled_leaves_channels_empty (fra : Vec3 → Vec3 → Vec3 → Vec3)
    (cfg : GizmoConfig) (hcfg : cfg.enabled = false) (cmds : List DrawCmd)
    (b : RGizmoBuffer) :
    applyCmds fra cfg b cmds = b ∧
    ((applyCmds fra cfg GizmoBuffer.empty cmds).list_positions.length = 0 ∧
      (applyCmds fra cfg GizmoBuffer.empty cmds).list_colors.length = 0 ∧
      (applyCmds fra cfg GizmoBuffer.empty cmds).strip_positions.length = 0 ∧
      (applyCmds fra cfg GizmoBuffer.empty cmds).strip_colors.length = 0) := by
  have hgen : ∀ (bb : RGizmoBuffer), applyCmds fra cfg bb cmds = bb := by
    intro bb
    induction cmds generalizing bb with
    | nil => rfl
    | cons cmd tl ih =>
      unfold applyCmds
      rw [List.foldl_cons, applyCmd_disabled fra cfg hcfg bb cmd]
      exact ih bb
  refine ⟨hgen b, ?_⟩
  rw [hgen GizmoBuffer.empty]
  exact ⟨rfl, rfl, rfl, rfl⟩

/-- Identity stand-in for the external from-rotation-arc action, used by
witnesses. -/
def fraW : Vec3 → Vec3 → Vec3 → Vec3 := fun _ _ v => v

/-- Concrete command sequence used by witnesses. -/
def cmdsW : List DrawCmd :=
  [DrawCmd.line (0, 0, 0) (1, 0, 0) (1, 1, 1, 1),
   DrawCmd.linestrip [(0, 0, 0), (1, 0, 0), (1, 1, 0)] (1, 0, 0, 1),
   DrawCmd.circle (0, 0, 0) (0, 0, 1) 1 (1, 1, 1, 1) 8,
   DrawCmd.sphere (0, 0, 0) (fun v => v) 1 (1, 1, 1, 1) 6,
   DrawCmd.arc_2d (0, 0) 0 1 1 (1, 1, 1, 1) none,
   DrawCmd.cuboid (fun v => v) (0, 1, 0, 1)]

theorem c2_disabled_leaves_channels_empty_witness :
    cfgOff.enabled = false ∧
    (applyCmds fraW cfgOff GizmoBuffer.empty cmdsW = GizmoBuffer.empty ∧
      ((applyCmds fraW cfgOff GizmoBuffer.empty cmdsW).list_positions.length = 0 ∧
        (applyCmds fraW cfgOff GizmoBuffer.empty cmdsW).list_colors.length = 0 ∧
        (applyCmds fraW cfgOff GizmoBuffer.empty cmdsW).strip_positions.length = 0 ∧
        (applyCmds fraW cfgOff GizmoBuffer.empty cmdsW).strip_colors.length = 0)) :=
  ⟨rfl, c2_disabled_leaves_channels_empty fraW cfgOff rfl cmdsW GizmoBuffer.empty⟩

end CommandLayer

noncomputable section SamplerFacts

theorem circle_inner_length (r : ℝ) (segments : Nat) :
    (circle_inner r segments).length = segments + 1 := by
  simp only [circle_inner, List.length_map, List.length_range]

theorem circle_inner_get (r : ℝ) (segments : Nat) (i : Nat)
    (h : i < (circle_inner r segments).length) :
    (circle_inner r segments).get ⟨i, h⟩
      = (Real.sin ((i : ℝ) * TAU / (segments : ℝ)) * r,
         Real.cos ((i : ℝ) * TAU / (segments : ℝ)) * r) := by
  simp only [circle_inner, List.get_eq_getElem, List.getElem_map, List.getElem_range]

theorem CircleBuilder_drop_strip_positions (fra : Vec3 → Vec3 → Vec3 → Vec3)
    (cfg : GizmoConfig) (he : cfg.enabled = true) (self : CircleBuilder)
    (b : RGizmoBuffer) :
    (CircleBuilder.drop fra cfg self b).strip_positions
      = b.strip_positions
        ++ ((circle_inner self.radius self.segments).map
            (fun v2 => vadd3 self.position (fra vec3Z self.normal (vec2Extend v2 0)))).map
              some
        ++ [none] := by
  unfold CircleBuilder.drop
  simp only [he, if_true]
  rw [linestrip_strip_positions_eq cfg he]

theorem CircleBuilder_drop_length (fra : Vec3 → Vec3 → Vec3 → Vec3) (cfg : GizmoConfig)
    (he : cfg.enabled = true) (self : CircleBuilder) (b : RGizmoBuffer) :
    (CircleBuilder.drop fra cfg self b).strip_positions.length
      = b.strip_positions.length + (self.segments + 2) := by
  rw [CircleBuilder_drop_strip_positions fra cfg he self b]
  simp [circle_inner_length]
  try omega

/-- C3: for every segment count N at least 1, circle_inner produces exactly
N + 1 points, the i-th point lying at angle i * TAU / N scaled by the
radius; the first and the last point coincide (exactly, in the real-number
model of f32); and consequently a circle builder with N segments finalized
while enabled appends those N + 1 data points plus one restart marker to
the strip channel. -/
theorem c3_circle_sampler (N : Nat) (hN : 1 ≤ N) (r : ℝ) :
    (circle_inner r N).length = N + 1 ∧
    (∀ i (h : i < (circle_inner r N).length),
      (circle_inner r N).get ⟨i, h⟩
        = (Real.sin ((i : ℝ) * TAU / (N : ℝ)) * r,
           Real.cos ((i : ℝ) * TAU / (N : ℝ)) * r)) ∧
    (∀ (h0 : 0 < (circle_inner r N).length) (hN2 : N < (circle_inner r N).length),
      (circle_inner r N).get ⟨0, h0⟩ = (circle_inner r N).get ⟨N, hN2⟩) ∧
    (∀ (fra : Vec3 → Vec3 → Vec3 → Vec3) (cfg : GizmoConfig), cfg.enabled = true →
      ∀ (b : RGizmoBuffer) (p n : Vec3) (c : Col4),
        (CircleBuilder.drop fra cfg ((Gizmos.circle p n r c).setSegments N) b).strip_positions
          = b.strip_positions
            ++ ((circle_inner r N).map
                (fun v2 => vadd3 p (fra vec3Z n (vec2Extend v2 0)))).map some
            ++ [none] ∧
        (CircleBuilder.drop fra cfg ((Gizmos.circle p n r c).setSegments N)
            b).strip_positions.length
          = b.strip_positions.length + (N + 1) + 1) := by
  have hNr : (N : ℝ) ≠ 0 := Nat.cast_ne_zero.mpr (by omega)
  refine ⟨circle_inner_length r N, fun i h => circle_inner_get r N i h, ?_, ?_⟩
  · intro h0 hN2
    rw [circle_inner_get r N 0 h0, circle_inner_get r N N hN2]
    have hangle : (N : ℝ) * TAU / (N : ℝ) = TAU := mul_div_cancel_left₀ TAU hNr
    rw [hangle]
    have h0angle : (0 : ℕ) * TAU / (N : ℝ) = 0 := by
      push_cast
      ring
    rw [h0angle]
    rw [Real.sin_zero, Real.cos_zero, TAU, Real.sin_two_pi, Real.cos_two_pi]
  · intro fra cfg he b p n c
    have hself : ((Gizmos.circle p n r c).setSegments N)
        = ⟨p, n, r, c, N⟩ := rfl
    constructor
    · rw [CircleBuilder_drop_strip_positions fra cfg he _ b, hself]
    · rw [CircleBuilder_drop_length fra cfg he _ b, hself]
      show b.strip_positions.length + (N + 2) = b.strip_positions.length + (N + 1) + 1
      omega

theorem c3_circle_sampler_witness :
    1 ≤ 1 ∧
    ((circle_inner 1 1).length = 1 + 1 ∧
    (∀ i (h : i < (circle_inner 1 1).length),
      (circle_inner 1 1).get ⟨i, h⟩
        = (Real.sin ((i : ℝ) * TAU / ((1 : Nat) : ℝ)) * 1,
           Real.cos ((i : ℝ) * TAU / ((1 : Nat) : ℝ)) * 1)) ∧
    (∀ (h0 : 0 < (circle_inner 1 1).length) (hN2 : 1 < (circle_inner 1 1).length),
      (circle_inner 1 1).get ⟨0, h0⟩ = (circle_inner 1 1).get ⟨1, hN2⟩) ∧
    (∀ (fra : Vec3 → Vec3 → Vec3 → Vec3) (cfg : GizmoConfig), cfg.enabled = true →
      ∀ (b : RGizmoBuffer) (p n : Vec3) (c : Col4),
        (CircleBuilder.drop fra cfg ((Gizmos.circle p n 1 c).setSegments 1) b).strip_positions
          = b.strip_positions
            ++ ((circle_inner 1 1).map
                (fun v2 => vadd3 p (fra vec3Z n (vec2Extend v2 0)))).map some
            ++ [none] ∧
        (CircleBuilder.drop fra cfg ((Gizmos.circle p n 1 c).setSegments 1)
            b).strip_positions.length
          = b.strip_positions.length + (1 + 1) + 1)) :=
  ⟨by decide, c3_circle_sampler 1 (by decide) 1⟩

end SamplerFacts

noncomputable section BuilderFacts

theorem arc_inner_length (d a r : ℝ) (segments : Nat) :
    (arc_inner d a r segments).length = segments + 1 := by
  unfold arc_inner
  rw [List.length_map, List.length_range]

theorem linestrip_2d_strip_length (cfg : GizmoConfig) (he : cfg.enabled = true)
    (ps : List Vec2) (c : Col4) (b : RGizmoBuffer) :
    (Gizmos.linestrip_2d cfg ps c b).strip_positions.length
      = b.strip_positions.length + (ps.length + 1) := by
  unfold Gizmos.linestrip_2d
  simp only [he, if_true]
  rw [linestrip_strip_positions_eq cfg he]
  simp

theorem Circle2dBuilder_drop_length (cfg : GizmoConfig) (he : cfg.enabled = true)
    (self : Circle2dBuilder) (b : RGizmoBuffer) :
    (Circle2dBuilder.drop cfg self b).strip_positions.length
      = b.strip_positions.length + (self.segments + 2) := by
  unfold Circle2dBuilder.drop
  simp only [he, if_true]
  rw [linestrip_2d_strip_length cfg he]
  rw [List.length_map, circle_inner_length]

theorem Arc2dBuilder_drop_length (cfg : GizmoConfig) (he : cfg.enabled = true)
    (self : Arc2dBuilder) (b : RGizmoBuffer) :
    (Arc2dBuilder.drop cfg self b).strip_positions.length
      = b.strip_positions.length + (self.resolvedSegments + 2) := by
  unfold Arc2dBuilder.drop
  simp only [he, if_true]
  rw [linestrip_2d_strip_length cfg he]
  rw [List.length_map, arc_inner_length]

theorem SphereBuilder_drop_length (fra : Vec3 → Vec3 → Vec3 → Vec3) (cfg : GizmoConfig)
    (he : cfg.enabled = true) (self : SphereBuilder) (b : RGizmoBuffer) :
    (SphereBuilder.drop fra cfg self b).strip_positions.length
      = b.strip_positions.length + 3 * (self.circle_segments + 2) := by
  unfold SphereBuilder.drop
  simp only [he, if_true, List.foldl_cons, List.foldl_nil]
  rw [CircleBuilder_drop_length fra cfg he, CircleBuilder_drop_length fra cfg he,
    CircleBuilder_drop_length fra cfg he]
  show b.strip_positions.length + (self.circle_segments + 2) + (self.circle_segments + 2)
      + (self.circle_segments + 2) = _
  omega

/-- C7: for every builder (circle, circle_2d, sphere, arc_2d) the encoding
action at end of scope fires exactly when the group is enabled at
finalization time: disabled at finalization means the buffer is unchanged,
enabled means the strip channel strictly grows by the builder's full
output.  Construction reads no configuration at all (the constructors
Gizmos.circle, Gizmos.sphere, Gizmos.circle_2d and Gizmos.arc_2d only
record parameters), so a group disabled at construction but enabled before
scope end still draws. -/
theorem c7_builder_drop_fires_iff_enabled (fra : Vec3 → Vec3 → Vec3 → Vec3)
    (cfg : GizmoConfig) (b : RGizmoBuffer) (p n : Vec3) (rot : Vec3 → Vec3) (r : ℝ)
    (c : Col4) (s : Nat) (p2 : Vec2) (d a : ℝ) (so : Option Nat) :
    ((cfg.enabled = false →
        CircleBuilder.drop fra cfg ((Gizmos.circle p n r c).setSegments s) b = b) ∧
      (cfg.enabled = true →
        (CircleBuilder.drop fra cfg ((Gizmos.circle p n r c).setSegments s)
            b).strip_positions.length = b.strip_positions.length + (s + 2))) ∧
    ((cfg.enabled = false →
        SphereBuilder.drop fra cfg ((Gizmos.sphere p rot r c).setCircleSegments s) b = b) ∧
      (cfg.enabled = true →
        (SphereBuilder.drop fra cfg ((Gizmos.sphere p rot r c).setCircleSegments s)
            b).strip_positions.length = b.strip_positions.length + 3 * (s + 2))) ∧
    ((cfg.enabled = false →
        Circle2dBuilder.drop cfg ((Gizmos.circle_2d p2 r c).setSegments s) b = b) ∧
      (cfg.enabled = true →
        (Circle2dBuilder.drop cfg ((Gizmos.circle_2d p2 r c).setSegments s)
            b).strip_positions.length = b.strip_positions.length + (s + 2))) ∧
    ((cfg.enabled = false →
        Arc2dBuilder.drop cfg { Gizmos.arc_2d p2 d a r c with segments := so } b = b) ∧
      (cfg.enabled = true →
        (Arc2dBuilder.drop cfg { Gizmos.arc_2d p2 d a r c with segments := so }
            b).strip_positions.length
          = b.strip_positions.length
            + (({ Gizmos.arc_2d p2 d a r c with segments := so } :
                Arc2dBuilder).resolvedSegments + 2))) := by
  refine ⟨⟨?_, ?_⟩, ⟨?_, ?_⟩, ⟨?_, ?_⟩, ⟨?_, ?_⟩⟩
  · intro hd
    simp [CircleBuilder.drop, hd]
  · intro he
    exact CircleBuilder_drop_length fra cfg he _ b
  · intro hd
    simp [SphereBuilder.drop, hd]
  · intro he
    exact SphereBuilder_drop_length fra cfg he _ b
  · intro hd
    simp [Circle2dBuilder.drop, hd]
  · intro he
    exact Circle2dBuilder_drop_length cfg he _ b
  · intro hd
    simp [Arc2dBuilder.drop, hd]
  · intro he
    exact Arc2dBuilder_drop_length cfg he _ b

theorem c7_builder_drop_fires_iff_enabled_witness :
    (cfgOff.enabled = false ∧
      CircleBuilder.drop fraW cfgOff
        ((Gizmos.circle (0, 0, 0) (0, 0, 1) 1 (1, 1, 1, 1)).setSegments 4)
        GizmoBuffer.empty = GizmoBuffer.empty) ∧
    (cfgOn.enabled = true ∧
      (CircleBuilder.drop fraW cfgOn
        ((Gizmos.circle (0, 0, 0) (0, 0, 1) 1 (1, 1, 1, 1)).setSegments 4)
        GizmoBuffer.empty).strip_positions.length
        = (GizmoBuffer.empty : RGizmoBuffer).strip_positions.length + (4 + 2)) ∧
    ((SphereBuilder.drop fraW cfgOn
        ((Gizmos.sphere (0, 0, 0) (fun v => v) 1 (1, 1, 1, 1)).setCircleSegments 4)
        GizmoBuffer.empty).strip_positions.length
        = (GizmoBuffer.empty : RGizmoBuffer).strip_positions.length + 3 * (4 + 2)) ∧
    ((Circle2dBuilder.drop cfgOn
        ((Gizmos.circle_2d (0, 0) 1 (1, 1, 1, 1)).setSegments 4)
        GizmoBuffer.empty).strip_positions.length
        = (GizmoBuffer.empty : RGizmoBuffer).strip_positions.length + (4 + 2)) ∧
    ((Arc2dBuilder.drop cfgOn
        { Gizmos.arc_2d (0, 0) 0 1 1 (1, 1, 1, 1) with segments := some 4 }
        GizmoBuffer.empty).strip_positions.length
        = (GizmoBuffer.empty : RGizmoBuffer).strip_positions.length
          + (({ Gizmos.arc_2d (0, 0) 0 1 1 (1, 1, 1, 1) with segments := some 4 } :
              Arc2dBuilder).resolvedSegments + 2)) :=
  ⟨⟨rfl, (c7_builder_drop_fires_iff_enabled fraW cfgOff GizmoBuffer.empty (0, 0, 0)
      (0, 0, 1) (fun v => v) 1 (1, 1, 1, 1) 4 (0, 0) 0 1 (some 4)).1.1 rfl⟩,
    ⟨rfl, (c7_builder_drop_fires_iff_enabled fraW cfgOn GizmoBuffer.empty (0, 0, 0)
      (0, 0, 1) (fun v => v) 1 (1, 1, 1, 1) 4 (0, 0) 0 1 (some 4)).1.2 rfl⟩,
    (c7_builder_drop_fires_iff_enabled fraW cfgOn GizmoBuffer.empty (0, 0, 0)
      (0, 0, 1) (fun v => v) 1 (1, 1, 1, 1) 4 (0, 0) 0 1 (some 4)).2.1.2 rfl,
    (c7_builder_drop_fires_iff_enabled fraW cfgOn GizmoBuffer.empty (0, 0, 0)
      (0, 0, 1) (fun v => v) 1 (1, 1, 1, 1) 4 (0, 0) 0 1 (some 4)).2.2.1.2 rfl,
    (c7_builder_drop_fires_iff_enabled fraW cfgOn GizmoBuffer.empty (0, 0, 0)
      (0, 0, 1) (fun v => v) 1 (1, 1, 1, 1) 4 (0, 0) 0 1 (some 4)).2.2.2.2 rfl⟩

end BuilderFacts

noncomputable section SegmentInputs

/-- C9 counterexample: the caller-facing segment api neither rejects nor
clamps segments = 0.  CircleBuilder::segments(0) stores 0 as is (so the
stored count is not at least 1), and circle_inner then executes with the
zero segment count, producing its degenerate single point with a
zero-divisor angle computation. -/
theorem c9_counterexample_segments_zero_accepted :
    ((Gizmos.circle (0, 0, 0) (0, 0, 1) 1 (1, 1, 1, 1)).setSegments 0).segments = 0 ∧
    ¬ 1 ≤ ((Gizmos.circle (0, 0, 0) (0, 0, 1) 1 (1, 1, 1, 1)).setSegments 0).segments ∧
    (circle_inner 1 0).length = 1 := by
  refine ⟨rfl, ?_, ?_⟩
  · intro h
    have : ((Gizmos.circle ((0 : ℝ), (0 : ℝ), (0 : ℝ)) (0, 0, 1) 1
        (1, 1, 1, 1)).setSegments 0).segments = 0 := rfl
    omega
  · rw [circle_inner_length]

/-- C9 amended: all numeric inputs are accepted as is, including
segments = 0: every segment setter stores the given count without
rejection or clamping, and with a zero segment count the samplers execute
their angle division with a zero divisor, producing a degenerate 1-point
shape (not a guarded minimum of one segment). -/
theorem c9_amended_segments_accepted_as_is :
    (∀ (bld : CircleBuilder) (s2 : Nat), (bld.setSegments s2).segments = s2) ∧
    (∀ (bld : Circle2dBuilder) (s2 : Nat), (bld.setSegments s2).segments = s2) ∧
    (∀ (bld : SphereBuilder) (s2 : Nat), (bld.setCircleSegments s2).circle_segments = s2) ∧
    (∀ (bld : Arc2dBuilder) (s2 : Nat), (bld.setSegments s2).resolvedSegments = s2) ∧
    (∀ r : ℝ, (circle_inner r 0).length = 1) ∧
    (∀ d a r : ℝ, (arc_inner d a r 0).length = 1) :=
  ⟨fun _ _ => rfl, fun _ _ => rfl, fun _ _ => rfl, fun _ _ => rfl,
    fun r => by rw [circle_inner_length],
    fun d a r => by rw [arc_inner_length]⟩

/-- C10 counterexample: an arc builder finalized without an explicit
segment override and with arc_angle = 0 resolves to 0 segments, not to a
count of at least 1 (ceil((|0| / TAU) * 32) = 0, whereas an interpolation
anchored at 1 would give at least 1). -/
theorem c10_counterexample_zero_angle_zero_segments :
    (Gizmos.arc_2d (0, 0) 0 0 1 (1, 1, 1, 1)).resolvedSegments = 0 ∧
    ¬ 1 ≤ (Gizmos.arc_2d (0, 0) 0 0 1 (1, 1, 1, 1)).resolvedSegments := by
  have h : (Gizmos.arc_2d ((0 : ℝ), (0 : ℝ)) 0 0 1 (1, 1, 1, 1)).resolvedSegments = 0 := by
    simp [Gizmos.arc_2d, Arc2dBuilder.resolvedSegments]
  exact ⟨h, by omega⟩

/-- C10 amended: the default segment count of an arc builder equals
ceil((|arc_angle| / TAU) * 32) - a proportional scaling of the 32-segment
full-circle baseline, rounded up.  It is at least 1 for every nonzero arc
angle (shorter arcs get fewer segments), but it is 0 when arc_angle = 0;
an explicit override is used verbatim. -/
theorem c10_amended_default_segment_count (p2 : Vec2) (d a r : ℝ) (c : Col4) :
    (Gizmos.arc_2d p2 d a r c).resolvedSegments
      = (Int.ceil ((|a| / TAU) * (DEFAULT_CIRCLE_SEGMENTS : ℝ))).toNat ∧
    (a ≠ 0 → 1 ≤ (Gizmos.arc_2d p2 d a r c).resolvedSegments) ∧
    (∀ s : Nat, ((Gizmos.arc_2d p2 d a r c).setSegments s).resolvedSegments = s) := by
  refine ⟨rfl, ?_, fun s => rfl⟩
  intro ha
  have habs : 0 < |a| := abs_pos.mpr ha
  have htau : 0 < TAU := by
    unfold TAU
    positivity
  have hpos : 0 < (|a| / TAU) * (DEFAULT_CIRCLE_SEGMENTS : ℝ) := by
    have : (0 : ℝ) < (DEFAULT_CIRCLE_SEGMENTS : ℝ) := by
      norm_num [DEFAULT_CIRCLE_SEGMENTS]
    exact mul_pos (div_pos habs htau) this
  have hceil : 0 < Int.ceil ((|a| / TAU) * (DEFAULT_CIRCLE_SEGMENTS : ℝ)) :=
    Int.ceil_pos.mpr hpos
  show 1 ≤ (Int.ceil ((|a| / TAU) * (DEFAULT_CIRCLE_SEGMENTS : ℝ))).toNat
  omega

theorem c10_amended_default_segment_count_witness :
    (TAU : ℝ) ≠ 0 ∧ 1 ≤ (Gizmos.arc_2d (0, 0) 0 TAU 1 (1, 1, 1, 1)).resolvedSegments :=
  have htau : (TAU : ℝ) ≠ 0 := by
    unfold TAU
    positivity
  ⟨htau, (c10_amended_default_segment_count (0, 0) 0 TAU 1 (1, 1, 1, 1)).2.1 htau⟩

end SegmentInputs

section ChannelInvariant

variable {P C : Type}

/-- Channel well-formedness: strip positions and colours have equal length
and carry restart markers at exactly the same indices, and the list
channel holds no marker entry at all. -/
def buffInv (b : GizmoBuffer P C) : Prop :=
  b.strip_positions.length = b.strip_colors.length ∧
  (∀ pc ∈ b.strip_positions.zip b.strip_colors, (pc.1 = none ↔ pc.2 = none)) ∧
  none ∉ b.list_positions ∧ none ∉ b.list_colors

theorem buffInv_empty : buffInv (GizmoBuffer.empty : GizmoBuffer P C) := by
  simp [buffInv, GizmoBuffer.empty]

theorem zip_marker_append (sp : List (Option P)) (sc : List (Option C))
    (hlen : sp.length = sc.length)
    (hsp : ∀ pc ∈ sp.zip sc, (pc.1 = none ↔ pc.2 = none))
    (ps : List P) (cs : List C) (hpc : ps.length = cs.length) :
    ∀ pc ∈ (sp ++ ps.map some ++ [none]).zip (sc ++ cs.map some ++ [none]),
      (pc.1 = none ↔ pc.2 = none) := by
  intro pc hmem
  rw [List.append_assoc, List.append_assoc, List.zip_append hlen] at hmem
  rcases List.mem_append.mp hmem with h1 | h2
  · exact hsp pc h1
  · rw [List.zip_append (by simp [hpc])] at h2
    rcases List.mem_append.mp h2 with h3 | h4
    · obtain ⟨hp, hc⟩ := List.of_mem_zip h3
      obtain ⟨x, _, hxe⟩ := List.mem_map.mp hp
      obtain ⟨y, _, hye⟩ := List.mem_map.mp hc
      constructor
      · intro hcon
        rw [← hxe] at hcon
        exact absurd hcon (by simp)
      · intro hcon
        rw [← hye] at hcon
        exact absurd hcon (by simp)
    · have : pc = (none, none) := by simpa using h4
      rw [this]
      simp

theorem buffInv_linestrip (cfg : GizmoConfig) (ps : List P) (c : C)
    (b : GizmoBuffer P C) (hb : buffInv b) : buffInv (Gizmos.linestrip cfg ps c b) := by
  by_cases he : cfg.enabled
  · have hpos := linestrip_strip_positions_eq cfg he b ps c
    have hcol := linestrip_strip_colors_eq cfg he b hb.1 ps c
    have hl1 : (Gizmos.linestrip cfg ps c b).list_positions = b.list_positions := by
      simp [Gizmos.linestrip, Gizmos.extend_strip_positions, he]
    have hl2 : (Gizmos.linestrip cfg ps c b).list_colors = b.list_colors := by
      simp [Gizmos.linestrip, Gizmos.extend_strip_positions, he]
    refine ⟨?_, ?_, ?_, ?_⟩
    · rw [hpos, hcol]
      simp [hb.1]
    · rw [hpos, hcol]
      rw [show (List.replicate ps.length (some c) : List (Option C))
          = (List.replicate ps.length c).map some from (List.map_replicate).symm]
      exact zip_marker_append b.strip_positions b.strip_colors hb.1 hb.2.1 ps
        (List.replicate ps.length c) (by simp)
    · rw [hl1]
      exact hb.2.2.1
    · rw [hl2]
      exact hb.2.2.2
  · have hfalse : cfg.enabled = false := by
      cases h : cfg.enabled
      · rfl
      · exact absurd h he
    simp only [Gizmos.linestrip, hfalse, Bool.false_eq_true, if_false]
    exact hb

theorem buffInv_linestrip_gradient (cfg : GizmoConfig) (pcs : List (P × C))
    (b : GizmoBuffer P C) (hb : buffInv b) :
    buffInv (Gizmos.linestrip_gradient cfg pcs b) := by
  by_cases he : cfg.enabled
  · have hpos := linestrip_gradient_strip_positions_eq cfg he b pcs
    have hcol := linestrip_gradient_strip_colors_eq cfg he b pcs
    have hl1 : (Gizmos.linestrip_gradient cfg pcs b).list_positions = b.list_positions := by
      simp [Gizmos.linestrip_gradient, he]
    have hl2 : (Gizmos.linestrip_gradient cfg pcs b).list_colors = b.list_colors := by
      simp [Gizmos.linestrip_gradient, he]
    have hmap1 : pcs.map (fun pc => some pc.1) = (pcs.map Prod.fst).map some := by
      rw [List.map_map]
      rfl
    have hmap2 : pcs.map (fun pc => some pc.2) = (pcs.map Prod.snd).map some := by
      rw [List.map_map]
      rfl
    refine ⟨?_, ?_, ?_, ?_⟩
    · rw [hpos, hcol]
      simp [hb.1]
    · rw [hpos, hcol, hmap1, hmap2]
      exact zip_marker_append b.strip_positions b.strip_colors hb.1 hb.2.1
        (pcs.map Prod.fst) (pcs.map Prod.snd) (by simp)
    · rw [hl1]
      exact hb.2.2.1
    · rw [hl2]
      exact hb.2.2.2
  · have hfalse : cfg.enabled = false := by
      cases h : cfg.enabled
      · rfl
      · exact absurd h he
    simp only [Gizmos.linestrip_gradient, hfalse, Bool.false_eq_true, if_false]
    exact hb

theorem buffInv_list_extend (b : GizmoBuffer P C) (hb : buffInv b)
    (ps : List P) (cs : List C) (c : C) (k : Nat) :
    buffInv (Gizmos.add_list_color (Gizmos.extend_list_positions b ps) c k) ∧
    buffInv (Gizmos.extend_list_colors (Gizmos.extend_list_positions b ps) cs) := by
  constructor
  · refine ⟨hb.1, hb.2.1, ?_, ?_⟩
    · simp only [Gizmos.add_list_color, Gizmos.extend_list_positions, List.mem_append]
      intro hcon
      rcases hcon with h1 | h2
      · exact hb.2.2.1 h1
      · obtain ⟨x, _, hxe⟩ := List.mem_map.mp h2
        exact absurd hxe (by simp)
    · simp only [Gizmos.add_list_color, Gizmos.extend_list_positions, List.mem_append]
      intro hcon
      rcases hcon with h1 | h2
      · exact hb.2.2.2 h1
      · have := List.eq_of_mem_replicate h2
        exact absurd this (by simp)
  · refine ⟨hb.1, hb.2.1, ?_, ?_⟩
    · simp only [Gizmos.extend_list_colors, Gizmos.extend_list_positions, List.mem_append]
      intro hcon
      rcases hcon with h1 | h2
      · exact hb.2.2.1 h1
      · obtain ⟨x, _, hxe⟩ := List.mem_map.mp h2
        exact absurd hxe (by simp)
    · simp only [Gizmos.extend_list_colors, Gizmos.extend_list_positions, List.mem_append]
      intro hcon
      rcases hcon with h1 | h2
      · exact hb.2.2.2 h1
      · obtain ⟨x, _, hxe⟩ := List.mem_map.mp h2
        exact absurd hxe (by simp)

theorem buffInv_line (cfg : GizmoConfig) (p1 p2 : P) (c : C) (b : GizmoBuffer P C)
    (hb : buffInv b) : buffInv (Gizmos.line cfg p1 p2 c b) := by
  unfold Gizmos.line
  split
  · exact (buffInv_list_extend b hb [p1, p2] [] c 2).1
  · exact hb

theorem buffInv_line_gradient (cfg : GizmoConfig) (p1 p2 : P) (c1 c2 : C)
    (b : GizmoBuffer P C) (hb : buffInv b) :
    buffInv (Gizmos.line_gradient cfg p1 p2 c1 c2 b) := by
  unfold Gizmos.line_gradient
  split
  · exact (buffInv_list_extend b hb [p1, p2] [c1, c2] c1 0).2
  · exact hb

end ChannelInvariant

noncomputable section InvariantCommands

theorem buffInv_ray (cfg : GizmoConfig) (s v : Vec3) (c : Col4) (b : RGizmoBuffer)
    (hb : buffInv b) : buffInv (Gizmos.ray cfg s v c b) := by
  unfold Gizmos.ray
  split
  · exact buffInv_line cfg _ _ c b hb
  · exact hb

theorem buffInv_ray_gradient (cfg : GizmoConfig) (s v : Vec3) (c1 c2 : Col4)
    (b : RGizmoBuffer) (hb : buffInv b) : buffInv (Gizmos.ray_gradient cfg s v c1 c2 b) := by
  unfold Gizmos.ray_gradient
  split
  · exact buffInv_line_gradient cfg _ _ c1 c2 b hb
  · exact hb

theorem buffInv_line_2d (cfg : GizmoConfig) (s e : Vec2) (c : Col4) (b : RGizmoBuffer)
    (hb : buffInv b) : buffInv (Gizmos.line_2d cfg s e c b) := by
  unfold Gizmos.line_2d
  split
  · exact buffInv_line cfg _ _ c b hb
  · exact hb

theorem buffInv_line_gradient_2d (cfg : GizmoConfig) (s e : Vec2) (c1 c2 : Col4)
    (b : RGizmoBuffer) (hb : buffInv b) :
    buffInv (Gizmos.line_gradient_2d cfg s e c1 c2 b) := by
  unfold Gizmos.line_gradient_2d
  split
  · exact buffInv_line_gradient cfg _ _ c1 c2 b hb
  · exact hb

theorem buffInv_linestrip_2d (cfg : GizmoConfig) (ps : List Vec2) (c : Col4)
    (b : RGizmoBuffer) (hb : buffInv b) : buffInv (Gizmos.linestrip_2d cfg ps c b) := by
  unfold Gizmos.linestrip_2d
  split
  · exact buffInv_linestrip cfg _ c b hb
  · exact hb

theorem buffInv_linestrip_gradient_2d (cfg : GizmoConfig) (ps : List (Vec2 × Col4))
    (b : RGizmoBuffer) (hb : buffInv b) :
    buffInv (Gizmos.linestrip_gradient_2d cfg ps b) := by
  unfold Gizmos.linestrip_gradient_2d
  split
  · exact buffInv_linestrip_gradient cfg _ b hb
  · exact hb

theorem buffInv_ray_2d (cfg : GizmoConfig) (s v : Vec2) (c : Col4) (b : RGizmoBuffer)
    (hb : buffInv b) : buffInv (Gizmos.ray_2d cfg s v c b) := by
  unfold Gizmos.ray_2d
  split
  · exact buffInv_line_2d cfg _ _ c b hb
  · exact hb

theorem buffInv_ray_gradient_2d (cfg : GizmoConfig) (s v : Vec2) (c1 c2 : Col4)
    (b : RGizmoBuffer) (hb : buffInv b) :
    buffInv (Gizmos.ray_gradient_2d cfg s v c1 c2 b) := by
  unfold Gizmos.ray_gradient_2d
  split
  · exact buffInv_line_gradient_2d cfg _ _ c1 c2 b hb
  · exact hb

theorem buffInv_rect (cfg : GizmoConfig) (p : Vec3) (rot : Vec3 → Vec3) (sz : Vec2)
    (c : Col4) (b : RGizmoBuffer) (hb : buffInv b) :
    buffInv (Gizmos.rect cfg p rot sz c b) := by
  unfold Gizmos.rect
  split
  · exact buffInv_linestrip cfg _ c b hb
  · exact hb

theorem buffInv_rect_2d (cfg : GizmoConfig) (p : Vec2) (rot : ℝ) (sz : Vec2) (c : Col4)
    (b : RGizmoBuffer) (hb : buffInv b) : buffInv (Gizmos.rect_2d cfg p rot sz c b) := by
  unfold Gizmos.rect_2d
  split
  · exact buffInv_linestrip_2d cfg _ c b hb
  · exact hb

theorem buffInv_cuboid (cfg : GizmoConfig) (t : Vec3 → Vec3) (c : Col4) (b : RGizmoBuffer)
    (hb : buffInv b) : buffInv (Gizmos.cuboid cfg t c b) := by
  unfold Gizmos.cuboid
  split
  · exact (buffInv_list_extend _ (buffInv_linestrip cfg _ c b hb) _ [] c 6).1
  · exact hb

theorem buffInv_CircleBuilder_drop (fra : Vec3 → Vec3 → Vec3 → Vec3) (cfg : GizmoConfig)
    (self : CircleBuilder) (b : RGizmoBuffer) (hb : buffInv b) :
    buffInv (CircleBuilder.drop fra cfg self b) := by
  unfold CircleBuilder.drop
  split
  · exact buffInv_linestrip cfg _ self.color b hb
  · exact hb

theorem buffInv_SphereBuilder_drop (fra : Vec3 → Vec3 → Vec3 → Vec3) (cfg : GizmoConfig)
    (self : SphereBuilder) (b : RGizmoBuffer) (hb : buffInv b) :
    buffInv (SphereBuilder.drop fra cfg self b) := by
  unfold SphereBuilder.drop
  split
  · simp only [List.foldl_cons, List.foldl_nil]
    exact buffInv_CircleBuilder_drop fra cfg _ _
      (buffInv_CircleBuilder_drop fra cfg _ _
        (buffInv_CircleBuilder_drop fra cfg _ _ hb))
  · exact hb

theorem buffInv_Circle2dBuilder_drop (cfg : GizmoConfig) (self : Circle2dBuilder)
    (b : RGizmoBuffer) (hb : buffInv b) : buffInv (Circle2dBuilder.drop cfg self b) := by
  unfold Circle2dBuilder.drop
  split
  · exact buffInv_linestrip_2d cfg _ self.color b hb
  · exact hb

theorem buffInv_Arc2dBuilder_drop (cfg : GizmoConfig) (self : Arc2dBuilder)
    (b : RGizmoBuffer) (hb : buffInv b) : buffInv (Arc2dBuilder.drop cfg self b) := by
  unfold Arc2dBuilder.drop
  split
  · exact buffInv_linestrip_2d cfg _ self.color b hb
  · exact hb

theorem buffInv_applyCmd (fra : Vec3 → Vec3 → Vec3 → Vec3) (cfg : GizmoConfig)
    (b : RGizmoBuffer) (hb : buffInv b) (cmd : DrawCmd) :
    buffInv (applyCmd fra cfg b cmd) := by
  cases cmd with
  | line s e c => exact buffInv_line cfg s e c b hb
  | line_gradient s e c1 c2 => exact buffInv_line_gradient cfg s e c1 c2 b hb
  | ray s v c => exact buffInv_ray cfg s v c b hb
  | ray_gradient s v c1 c2 => exact buffInv_ray_gradient cfg s v c1 c2 b hb
  | linestrip ps c => exact buffInv_linestrip cfg ps c b hb
  | linestrip_gradient ps => exact buffInv_linestrip_gradient cfg ps b hb
  | circle p n r c s => exact buffInv_CircleBuilder_drop fra cfg _ b hb
  | sphere p rot r c s => exact buffInv_SphereBuilder_drop fra cfg _ b hb
  | rect p rot sz c => exact buffInv_rect cfg p rot sz c b hb
  | cuboid t c => exact buffInv_cuboid cfg t c b hb
  | line_2d s e c => exact buffInv_line_2d cfg s e c b hb
  | line_gradient_2d s e c1 c2 => exact buffInv_line_gradient_2d cfg s e c1 c2 b hb
  | linestrip_2d ps c => exact buffInv_linestrip_2d cfg ps c b hb
  | linestrip_gradient_2d ps => exact buffInv_linestrip_gradient_2d cfg ps b hb
  | ray_2d s v c => exact buffInv_ray_2d cfg s v c b hb
  | ray_gradient_2d s v c1 c2 => exact buffInv_ray_gradient_2d cfg s v c1 c2 b hb
  | circle_2d p r c s => exact buffInv_Circle2dBuilder_drop cfg _ b hb
  | arc_2d p d a r c so => exact buffInv_Arc2dBuilder_drop cfg _ b hb
  | rect_2d p rot sz c => exact buffInv_rect_2d cfg p rot sz c b hb

/-- C8: after every sequence of public drawing operations starting from the
empty buffer, the strip position and strip colour buffers have equal
length, a restart-marker position occurs at an index exactly when a
restart-marker colour occurs at the same index, and the list channel
buffers contain no marker entry at all; moreover every single public
drawing operation preserves this invariant from any buffer satisfying it. -/
theorem c8_marker_pairing_invariant (fra : Vec3 → Vec3 → Vec3 → Vec3) (cfg : GizmoConfig) :
    (∀ (b : RGizmoBuffer), buffInv b → ∀ cmd, buffInv (applyCmd fra cfg b cmd)) ∧
    (∀ cmds : List DrawCmd, buffInv (applyCmds fra cfg GizmoBuffer.empty cmds)) := by
  constructor
  · intro b hb cmd
    exact buffInv_applyCmd fra cfg b hb cmd
  · intro cmds
    have hgen : ∀ (b : RGizmoBuffer), buffInv b → buffInv (applyCmds fra cfg b cmds) := by
      induction cmds with
      | nil => exact fun b hb => hb
      | cons cmd tl ih =>
        intro b hb
        unfold applyCmds
        rw [List.foldl_cons]
        exact ih _ (buffInv_applyCmd fra cfg b hb cmd)
    exact hgen GizmoBuffer.empty buffInv_empty

theorem c8_marker_pairing_invariant_witness :
    buffInv (GizmoBuffer.empty : RGizmoBuffer) ∧
    buffInv (applyCmd fraW cfgOn GizmoBuffer.empty
      (DrawCmd.linestrip [(0, 0, 0), (1, 0, 0)] (0, 1, 0, 1))) :=
  ⟨buffInv_empty,
    (c8_marker_pairing_invariant fraW cfgOn).1 GizmoBuffer.empty buffInv_empty
      (DrawCmd.linestrip [(0, 0, 0), (1, 0, 0)] (0, 1, 0, 1))⟩

end InvariantCommands
